import Mathlib

/-!
Shallow embedding of the real-time chat client `saadskzz/chatFront`.

The state and its reducers are translated from
`src/store/slices/chatSlice.ts` (Redux Toolkit slice `chat`), the socket
bridge from `src/contexts/SocketContex.tsx`, and the read-time grouping
from `src/components/chat/ChatWindow.tsx`.

JavaScript plain objects used as string-keyed dictionaries
(`Record<string, T>`) are modelled as association lists preserving key
insertion order; `obj[k] = v` updates the existing entry in place or
appends a fresh key at the end, `delete obj[k]` removes the entry, and
a missing key reads as `none` (JS `undefined`).

`new Date(s).getTime()` and the wall clock are modelled as parameters
(`getTime : String → Int`, and explicit `nowMs`/`nowISO` arguments where
the code calls `Date.now()` / `new Date().toISOString()`), since the
embedding cannot read a real clock.  `Array.prototype.sort` with a
numeric comparator is a stable sort; it is modelled by the stable
`List.insertionSort` keyed by the same comparison.
-/

namespace ChatFront

/-- Association-list lookup: JS `obj[k]`, `none` when the key is absent. -/
def recGet {α : Type} (r : List (String × α)) (k : String) : Option α :=
  match r with
  | [] => none
  | (k₁, v) :: rest => if k₁ = k then some v else recGet rest k

/-- Association-list write: JS `obj[k] = v` (update in place, or append a
new key at the end of insertion order). -/
def recSet {α : Type} (r : List (String × α)) (k : String) (v : α) :
    List (String × α) :=
  match r with
  | [] => [(k, v)]
  | (k₁, v₁) :: rest =>
    if k₁ = k then (k₁, v) :: rest else (k₁, v₁) :: recSet rest k v

/-- Association-list delete: JS `delete obj[k]`. -/
def recDel {α : Type} (r : List (String × α)) (k : String) :
    List (String × α) :=
  r.filter (fun p => p.1 != k)

/-- Update the first element satisfying `p` (JS `findIndex` then in-place
mutation of that index; no-op when the index is `-1`). -/
def updateFirst {α : Type} (p : α → Bool) (f : α → α) : List α → List α
  | [] => []
  | a :: l => if p a then f a :: l else a :: updateFirst p f l

/-- Update the first element satisfying `p`, reporting whether a match
was found (`none` = JS `findIndex` returned `-1`). -/
def updateFirst? {α : Type} (p : α → Bool) (f : α → α) :
    List α → Option (List α)
  | [] => none
  | a :: l =>
    if p a then some (f a :: l) else (updateFirst? p f l).map (a :: ·)

/-- `User` from `src/store/api/chatApi.ts` (the direct-message variant,
matching the backend user model). -/
structure User where
  _id : String
  firstName : String
  lastName : String
  email : String
deriving Repr, DecidableEq

/-- `Message` from `src/store/api/chatApi.ts`: optional fields are
`Option`s, `none` standing for an absent/undefined field. -/
structure Message where
  _id : String
  senderId : String
  receiverId : String
  text : Option String
  image : Option String
  createdAt : String
  updatedAt : String
  read : Option Bool
  readAt : Option String
deriving Repr, DecidableEq

/-- `Chat` from `src/store/slices/chatSlice.ts`. -/
structure Chat where
  id : String
  receiverId : String
  receiver : User
  lastMessage : Option Message
  unreadCount : Nat
  updatedAt : String
deriving Repr, DecidableEq

/-- `TypingUser` from `src/store/slices/chatSlice.ts`; the timer handle
`timeoutId?: NodeJS.Timeout` is modelled as an opaque numeric handle. -/
structure TypingUser where
  userId : String
  username : String
  timeoutId : Option Nat
deriving Repr, DecidableEq

/-- `ChatError` from `src/store/slices/chatSlice.ts`. -/
structure ChatError where
  message : String
  details : Option String
deriving Repr, DecidableEq

/-- Status literals of `MessageStatus.status`. -/
inductive MsgStatus where
  | sending
  | sent
  | delivered
  | read
deriving Repr, DecidableEq

/-- `MessageStatus` from `src/store/slices/chatSlice.ts`. -/
structure MessageStatus where
  messageId : String
  status : MsgStatus
  readAt : Option String
deriving Repr, DecidableEq

/-- `ChatState` from `src/store/slices/chatSlice.ts`. -/
structure ChatState where
  activeChatId : Option String
  activeReceiver : Option User
  chats : List Chat
  chatIds : List String
  messages : List (String × List Message)
  messageIds : List (String × List String)
  messageStatus : List (String × MessageStatus)
  isTyping : Bool
  typingUsers : List TypingUser
  onlineUsers : List String
  isChatListLoading : Bool
  isMessagesLoading : List (String × Bool)
  isSendingMessage : Bool
  searchTerm : String
  filteredChats : List Chat
  error : Option ChatError
deriving Repr, DecidableEq

/-- `initialState` from `src/store/slices/chatSlice.ts`. -/
def initialState : ChatState where
  activeChatId := none
  activeReceiver := none
  chats := []
  chatIds := []
  messages := []
  messageIds := []
  messageStatus := []
  isTyping := false
  typingUsers := []
  onlineUsers := []
  isChatListLoading := false
  isMessagesLoading := []
  isSendingMessage := false
  searchTerm := ""
  filteredChats := []
  error := none

/-- `state.chats.sort((a, b) => new Date(b.updatedAt).getTime() -
new Date(a.updatedAt).getTime())`: stable sort, descending by
`updatedAt` as interpreted by `getTime`. -/
def sortChatsByUpdatedAt (getTime : String → Int) (l : List Chat) :
    List Chat :=
  List.insertionSort
    (fun a b => getTime b.updatedAt ≤ getTime a.updatedAt) l

/-- Reducer `setActiveChat` (`chatSlice.ts`): records the active chat,
clears its loading flag, zeroes the unread count of the first matching
chat entry, and keeps only typing entries whose `userId` equals the new
`receiverId`. -/
def setActiveChat (state : ChatState) (receiverId : String)
    (receiver : User) : ChatState :=
  let state₁ : ChatState :=
    { state with
      activeChatId := some receiverId
      activeReceiver := some receiver
      isMessagesLoading := recSet state.isMessagesLoading receiverId false }
  let state₂ : ChatState :=
    { state₁ with
      chats := updateFirst (fun c => c.receiverId == receiverId)
        (fun c => { c with unreadCount := 0 }) state₁.chats }
  { state₂ with
    typingUsers :=
      state₂.typingUsers.filter (fun u => u.userId == receiverId) }

/-- Reducer `setMessages` (`chatSlice.ts`). -/
def setMessages (state : ChatState) (receiverId : String)
    (messages : List Message) : ChatState :=
  { state with
    messages := recSet state.messages receiverId messages
    messageIds :=
      recSet state.messageIds receiverId (messages.map (fun m => m._id))
    isMessagesLoading := recSet state.isMessagesLoading receiverId false }

/-- Second half of reducer `addMessage` (`chatSlice.ts`), run only when
the message was actually appended: updates the first matching chat entry
(last message, `updatedAt`, unread count unless the chat is active), or
unshifts a freshly created chat entry with a placeholder `User`, then
re-sorts `chats` by `updatedAt` descending and mirrors the result into
`filteredChats`. -/
def addMessageChats (getTime : String → Int) (state₂ : ChatState)
    (receiverId : String) (message : Message) : ChatState :=
  let state₃ : ChatState :=
    if state₂.chats.any (fun c => c.receiverId == receiverId) then
      { state₂ with
        chats := updateFirst (fun c => c.receiverId == receiverId)
          (fun c =>
            { c with
              lastMessage := some message
              updatedAt := message.createdAt
              unreadCount :=
                if state₂.activeChatId ≠ some receiverId then
                  c.unreadCount + 1
                else c.unreadCount })
          state₂.chats }
    else
      let receiverUser : User :=
        { _id := receiverId, firstName := "Unknown",
          lastName := "User", email := "" }
      let newChat : Chat :=
        { id := receiverId, receiverId := receiverId,
          receiver := receiverUser, lastMessage := some message,
          unreadCount :=
            if state₂.activeChatId = some receiverId then 0 else 1,
          updatedAt := message.createdAt }
      { state₂ with
        chats := newChat :: state₂.chats
        chatIds := receiverId :: state₂.chatIds }
  let sorted := sortChatsByUpdatedAt getTime state₃.chats
  { state₃ with chats := sorted, filteredChats := sorted }

/-- Reducer `addMessage` (`chatSlice.ts`): initialises the per-key
arrays when absent, drops the call when the `_id` is already present in
the conversation, otherwise appends the message to both arrays and runs
the chat-list update (`addMessageChats`). -/
def addMessage (getTime : String → Int) (state : ChatState)
    (receiverId : String) (message : Message) : ChatState :=
  let state₁ : ChatState :=
    if (recGet state.messages receiverId).isNone then
      { state with
        messages := recSet state.messages receiverId []
        messageIds := recSet state.messageIds receiverId [] }
    else state
  let cur : List Message := (recGet state₁.messages receiverId).getD []
  if cur.any (fun m => m._id == message._id) then state₁
  else
    let state₂ : ChatState :=
      { state₁ with
        messages := recSet state₁.messages receiverId (cur ++ [message])
        messageIds := recSet state₁.messageIds receiverId
          (((recGet state₁.messageIds receiverId).getD [])
            ++ [message._id]) }
    addMessageChats getTime state₂ receiverId message

/-- `Partial<Message>`: each component is `some v` when the key is
present in the update object (overwriting on spread) and `none` when
absent (preserving the existing field). -/
structure MessagePatch where
  _id : Option String := none
  senderId : Option String := none
  receiverId : Option String := none
  text : Option (Option String) := none
  image : Option (Option String) := none
  createdAt : Option String := none
  updatedAt : Option String := none
  read : Option (Option Bool) := none
  readAt : Option (Option String) := none
deriving Repr, DecidableEq

/-- Object spread `{ ...m, ...p }`. -/
def applyPatch (m : Message) (p : MessagePatch) : Message where
  _id := p._id.getD m._id
  senderId := p.senderId.getD m.senderId
  receiverId := p.receiverId.getD m.receiverId
  text := p.text.getD m.text
  image := p.image.getD m.image
  createdAt := p.createdAt.getD m.createdAt
  updatedAt := p.updatedAt.getD m.updatedAt
  read := p.read.getD m.read
  readAt := p.readAt.getD m.readAt

/-- Reducer `updateMessage` (`chatSlice.ts`): merges `updates` into the
first message whose `_id` equals `messageId`; when the key or the id is
missing the state is left untouched.  `messageIds` is not updated. -/
def updateMessage (state : ChatState) (receiverId messageId : String)
    (updates : MessagePatch) : ChatState :=
  match recGet state.messages receiverId with
  | none => state
  | some msgs =>
    match updateFirst? (fun m => m._id == messageId)
        (fun m => applyPatch m updates) msgs with
    | none => state
    | some msgs₁ =>
      { state with messages := recSet state.messages receiverId msgs₁ }

/-- Reducer `removeMessage` (`chatSlice.ts`).  When `messages[rid]`
exists the source filters both arrays; `messageIds[rid]` is read with a
`[]` default here (in the source a missing entry at that point would
fault, which is unreachable while the two records are aligned). -/
def removeMessage (state : ChatState) (receiverId messageId : String) :
    ChatState :=
  let state₁ : ChatState :=
    match recGet state.messages receiverId with
    | none => state
    | some msgs =>
      { state with
        messages := recSet state.messages receiverId
          (msgs.filter (fun m => m._id != messageId))
        messageIds := recSet state.messageIds receiverId
          (((recGet state.messageIds receiverId).getD []).filter
            (fun i => i != messageId)) }
  { state₁ with messageStatus := recDel state₁.messageStatus messageId }

/-- Reducer `addTypingUser` (`chatSlice.ts`): filters out any entry for
the same `userId`, then pushes the new entry. -/
def addTypingUser (state : ChatState) (payload : TypingUser) :
    ChatState :=
  { state with
    typingUsers :=
      (state.typingUsers.filter
        (fun u => u.userId != payload.userId)) ++ [payload] }

/-- Reducer `removeTypingUser` (`chatSlice.ts`): cancels the pending
timer (an external side effect with no state footprint) and filters out
the entry for `userId`. -/
def removeTypingUser (state : ChatState) (userId : String) : ChatState :=
  { state with
    typingUsers :=
      state.typingUsers.filter (fun u => u.userId != userId) }

/-- Payload of the outbound `sendPrivateMessage` event and of the
bridge-level `sendMessage` (`SocketContex.tsx`). -/
structure SendPayload where
  receiverId : String
  text : Option String
  image : Option String
deriving Repr, DecidableEq

/-- Events emitted on the socket by the bridge. -/
inductive OutboundEvent where
  | sendPrivateMessage (payload : SendPayload)
deriving Repr, DecidableEq

/-- The optimistic placeholder built inside `sendMessage`
(`SocketContex.tsx`): `_id = "temp_" + Date.now()`, the authenticated
user (or `""`) as sender, both timestamps from the wall clock.  `nowMs`
models `Date.now()` and `nowISO` models `new Date().toISOString()`. -/
def optimisticMessage (currentUserId : Option String) (nowMs : Nat)
    (nowISO : String) (data : SendPayload) : Message where
  _id := "temp_" ++ toString nowMs
  senderId := currentUserId.getD ""
  receiverId := data.receiverId
  text := data.text
  image := data.image
  createdAt := nowISO
  updatedAt := nowISO
  read := none
  readAt := none

/-- `sendMessage` from `src/contexts/SocketContex.tsx`: bails out when
the socket is absent or disconnected (no state change, no event);
otherwise dispatches `addMessage` for the receiver with the optimistic
placeholder and emits `sendPrivateMessage` with the original payload.
The source performs no validation of `text`/`image` here. -/
def sendMessage (getTime : String → Int) (connected : Bool)
    (currentUserId : Option String) (nowMs : Nat) (nowISO : String)
    (state : ChatState) (data : SendPayload) :
    ChatState × List OutboundEvent :=
  if !connected then (state, [])
  else
    (addMessage getTime state data.receiverId
        (optimisticMessage currentUserId nowMs nowISO data),
      [OutboundEvent.sendPrivateMessage data])

/-- Handler of the inbound `newPrivateMessage` event
(`SocketContex.tsx`): keys the message by the chat partner (receiver if
the authenticated user is the sender, sender otherwise) and dispatches
`addMessage`. -/
def onNewPrivateMessage (getTime : String → Int)
    (currentUserId : Option String) (state : ChatState)
    (newMessage : Message) : ChatState :=
  let chatPartnerId :=
    if currentUserId = some newMessage.senderId then newMessage.receiverId
    else newMessage.senderId
  addMessage getTime state chatPartnerId newMessage

/-- All fields of a concrete server message as an update object (the
`messageSent` handler spreads the whole confirmed message). -/
def fullPatch (m : Message) : MessagePatch where
  _id := some m._id
  senderId := some m.senderId
  receiverId := some m.receiverId
  text := some m.text
  image := some m.image
  createdAt := some m.createdAt
  updatedAt := some m.updatedAt
  read := some m.read
  readAt := some m.readAt

/-- Handler of the inbound `messageSent` confirmation
(`SocketContex.tsx`): dispatches `updateMessage` against the derived
temporary key built from the confirmed message's `createdAt`. -/
def onMessageSent (state : ChatState) (sentMessage : Message) :
    ChatState :=
  updateMessage state sentMessage.receiverId
    ("temp_" ++ sentMessage.createdAt) (fullPatch sentMessage)

/-- The `[...messages].sort((a, b) => new Date(a.createdAt).getTime() -
new Date(b.createdAt).getTime())` step of `groupMessagesByDate`
(`ChatWindow.tsx`): stable sort ascending by creation timestamp. -/
def sortMessagesByCreatedAt (getTime : String → Int)
    (l : List Message) : List Message :=
  List.insertionSort
    (fun a b => getTime a.createdAt ≤ getTime b.createdAt) l

/-- The `forEach` body of `groupMessagesByDate`: push the message onto
its date-key's group, creating the group when absent. -/
def groupStep (fmtDate : String → String)
    (grouped : List (String × List Message)) (msg : Message) :
    List (String × List Message) :=
  recSet grouped (fmtDate msg.createdAt)
    (((recGet grouped (fmtDate msg.createdAt)).getD []) ++ [msg])

/-- `groupMessagesByDate` from `src/components/chat/ChatWindow.tsx`:
sorts a copy of the list chronologically, then partitions it into
date-labelled groups in encounter order.  `fmtDate` models `formatDate`
at a fixed wall-clock instant (it maps a timestamp to "Today",
"Yesterday" or a short calendar date relative to the current day). -/
def groupMessagesByDate (getTime : String → Int)
    (fmtDate : String → String) (messages : List Message) :
    List (String × List Message) :=
  (sortMessagesByCreatedAt getTime messages).foldl
    (groupStep fmtDate) []

/-! ### Association-list lemmas -/

theorem recGet_recSet_self {α : Type} (r : List (String × α)) (k : String)
    (v : α) : recGet (recSet r k v) k = some v := by
  induction r with
  | nil => simp [recGet, recSet]
  | cons p rest ih =>
    by_cases h : p.1 = k
    · simp [recGet, recSet, h]
    · simp [recGet, recSet, h, ih]

theorem recGet_recSet_ne {α : Type} (r : List (String × α))
    (k k₁ : String) (v : α) (h : k ≠ k₁) :
    recGet (recSet r k v) k₁ = recGet r k₁ := by
  induction r with
  | nil => simp [recGet, recSet, h]
  | cons p rest ih =>
    by_cases hp : p.1 = k
    · subst hp
      simp [recGet, recSet, h]
    · simp only [recSet, if_neg hp]
      by_cases hq : p.1 = k₁
      · simp [recGet, hq]
      · simp [recGet, hq, ih]

theorem recGet_recSet {α : Type} (r : List (String × α))
    (k k₁ : String) (v : α) :
    recGet (recSet r k v) k₁ = if k = k₁ then some v else recGet r k₁ := by
  by_cases h : k = k₁
  · subst h; simp [recGet_recSet_self]
  · simp [h, recGet_recSet_ne r k k₁ v h]

/-! ### updateFirst lemmas -/

theorem updateFirst?_eq_none {α : Type} (p : α → Bool) (f : α → α)
    (l : List α) :
    updateFirst? p f l = none ↔ ∀ a ∈ l, p a = false := by
  induction l with
  | nil => simp [updateFirst?]
  | cons a l ih =>
    by_cases h : p a
    · simp [updateFirst?, h]
    · simp only [updateFirst?, Bool.not_eq_true] at h ⊢
      simp [h, ih]

theorem updateFirst?_map_eq {α : Type} {β : Type} (p : α → Bool)
    (f : α → α) (g : α → β) (l l₁ : List α)
    (hf : ∀ a, p a = true → g (f a) = g a)
    (h : updateFirst? p f l = some l₁) : l₁.map g = l.map g := by
  induction l generalizing l₁ with
  | nil => simp [updateFirst?] at h
  | cons a l ih =>
    by_cases hp : p a
    · simp only [updateFirst?, if_pos hp, Option.some.injEq] at h
      subst h
      simp [hf a hp]
    · simp only [updateFirst?, if_neg hp, Option.map_eq_some'] at h
      obtain ⟨l₂, hl₂, rfl⟩ := h
      simp [ih l₂ hl₂]

theorem updateFirst_exists {α : Type} (p : α → Bool) (f : α → α)
    (l : List α) (h : ∃ a ∈ l, p a = true) :
    ∃ b, p b = true ∧ f b ∈ updateFirst p f l := by
  induction l with
  | nil => simp at h
  | cons a l ih =>
    by_cases hp : p a
    · exact ⟨a, hp, by simp [updateFirst, hp]⟩
    · obtain ⟨b, hb, hpb⟩ := h
      rcases List.mem_cons.mp hb with hb | hb
      · subst hb; exact absurd hpb hp
      · obtain ⟨c, hc, hmem⟩ := ih ⟨b, hb, hpb⟩
        exact ⟨c, hc, by simp [updateFirst, hp, hmem]⟩

/-! ### Field-preservation facts for the chat-list stage of addMessage -/

theorem addMessageChats_messages (t : String → Int) (s : ChatState)
    (rid : String) (m : Message) :
    (addMessageChats t s rid m).messages = s.messages := by
  unfold addMessageChats
  split <;> rfl

theorem addMessageChats_messageIds (t : String → Int) (s : ChatState)
    (rid : String) (m : Message) :
    (addMessageChats t s rid m).messageIds = s.messageIds := by
  unfold addMessageChats
  split <;> rfl

theorem addMessageChats_typingUsers (t : String → Int) (s : ChatState)
    (rid : String) (m : Message) :
    (addMessageChats t s rid m).typingUsers = s.typingUsers := by
  unfold addMessageChats
  split <;> rfl

/-! ### Core behaviour of addMessage -/

theorem addMessage_of_mem (t : String → Int) (s : ChatState)
    (rid : String) (m : Message)
    (h : m._id ∈ ((recGet s.messages rid).getD []).map (fun x => x._id)) :
    addMessage t s rid m = s := by
  cases hm : recGet s.messages rid with
  | none => simp [hm] at h
  | some msgs =>
    have hany : msgs.any (fun x => x._id == m._id) = true := by
      simp only [hm, Option.getD_some, List.mem_map] at h
      obtain ⟨x, hx, hxe⟩ := h
      exact List.any_eq_true.mpr ⟨x, hx, by simp [hxe]⟩
    simp [addMessage, hm, hany]

theorem addMessage_messages_get (t : String → Int) (s : ChatState)
    (rid : String) (m : Message)
    (h : m._id ∉ ((recGet s.messages rid).getD []).map (fun x => x._id)) :
    recGet (addMessage t s rid m).messages rid
      = some ((recGet s.messages rid).getD [] ++ [m]) := by
  cases hm : recGet s.messages rid with
  | none =>
    simp only [addMessage, hm, Option.isNone_none, if_true,
      recGet_recSet_self, Option.getD_some, List.any_nil,
      Bool.false_eq_true, if_false]
    rw [addMessageChats_messages]
    simp [recGet_recSet_self]
  | some msgs =>
    have hany : msgs.any (fun x => x._id == m._id) = false := by
      simp only [hm, Option.getD_some, List.mem_map, not_exists] at h
      rw [List.any_eq_false]
      intro x hx
      simp only [beq_iff_eq]
      exact fun hxe => h x ⟨hx, hxe⟩
    simp only [addMessage, hm, Option.isNone_some, Bool.false_eq_true,
      if_false, Option.getD_some, hany]
    rw [addMessageChats_messages]
    simp [recGet_recSet_self, hm]

theorem addMessage_messages_get_ne (t : String → Int) (s : ChatState)
    (rid k : String) (m : Message) (hk : rid ≠ k) :
    recGet (addMessage t s rid m).messages k = recGet s.messages k := by
  cases hm : recGet s.messages rid with
  | none =>
    simp only [addMessage, hm, Option.isNone_none, if_true,
      recGet_recSet_self, Option.getD_some, List.any_nil,
      Bool.false_eq_true, if_false]
    rw [addMessageChats_messages]
    simp [recGet_recSet_ne _ _ _ _ hk]
  | some msgs =>
    simp only [addMessage, hm, Option.isNone_some, Bool.false_eq_true,
      if_false, Option.getD_some]
    by_cases hany : msgs.any (fun x => x._id == m._id)
    · simp [hany]
    · simp only [Bool.not_eq_true] at hany
      simp only [hany, Bool.false_eq_true, if_false]
      rw [addMessageChats_messages]
      simp [recGet_recSet_ne _ _ _ _ hk]

/-! ### Core behaviour of updateMessage -/

theorem updateMessage_of_no_match (s : ChatState) (rid mid : String)
    (p : MessagePatch)
    (h : ∀ m ∈ (recGet s.messages rid).getD [], m._id ≠ mid) :
    updateMessage s rid mid p = s := by
  unfold updateMessage
  cases hm : recGet s.messages rid with
  | none => rfl
  | some msgs =>
    have hnone : updateFirst? (fun m => m._id == mid)
        (fun m => applyPatch m p) msgs = none := by
      rw [updateFirst?_eq_none]
      intro a ha
      simp only [beq_eq_false_iff_ne, ne_eq]
      exact h a (by simp [hm, ha])
    simp [hnone]

/-! ### Typing-indicator lemmas -/

theorem addTypingUser_filter_id (s : ChatState) (p : TypingUser) :
    ((addTypingUser s p).typingUsers.filter
      (fun u => u.userId == p.userId)) = [p] := by
  simp only [addTypingUser]
  rw [List.filter_append, List.filter_filter]
  have h1 : (s.typingUsers.filter
      (fun a => (a.userId == p.userId) && (a.userId != p.userId))) = [] := by
    apply List.filter_eq_nil_iff.mpr
    intro a _
    by_cases h : a.userId = p.userId <;> simp [h]
  rw [h1]
  simp

/-! ### Concrete sample data used by witnesses and counterexamples -/

/-- Degenerate timestamp interpretation (every date parses to 0). -/
def tZero : String → Int := fun _ => 0

def msgA : Message :=
  { _id := "m1", senderId := "u1", receiverId := "u2",
    text := some "hello", image := none,
    createdAt := "2024-01-01T10:00:00.000Z",
    updatedAt := "2024-01-01T10:00:00.000Z",
    read := none, readAt := none }

def msgB : Message :=
  { _id := "m2", senderId := "u2", receiverId := "u1",
    text := some "hey", image := none,
    createdAt := "2024-01-01T11:00:00.000Z",
    updatedAt := "2024-01-01T11:00:00.000Z",
    read := none, readAt := none }

def userB : User :=
  { _id := "u2", firstName := "Bea", lastName := "Stone",
    email := "bea@example.com" }

def chatB : Chat :=
  { id := "u2", receiverId := "u2", receiver := userB,
    lastMessage := some msgA, unreadCount := 3,
    updatedAt := "2024-01-01T10:00:00.000Z" }

def typB : TypingUser :=
  { userId := "u2", username := "Bea", timeoutId := none }

def typC : TypingUser :=
  { userId := "u3", username := "Cid", timeoutId := some 7 }

/-- Sample state: one chat entry with unread messages, two users
typing. -/
def stateC10 : ChatState :=
  { initialState with chats := [chatB], typingUsers := [typB, typC] }

/-! ### Claim C5 -/

/-- C5: `updateMessage` (ReplaceMessage) given a conversation key and
message identifier matching no message in that conversation's list
leaves the entire state unchanged; the operation is silently skipped. -/
theorem updateMessage_skip_on_missing_target (s : ChatState)
    (rid mid : String) (p : MessagePatch)
    (h : ∀ m ∈ (recGet s.messages rid).getD [], m._id ≠ mid) :
    updateMessage s rid mid p = s :=
  updateMessage_of_no_match s rid mid p h

/-- Witness for C5: a concrete state holding one message under key
`"u2"`; updating a non-existent id `"nope"` leaves the state intact. -/
theorem updateMessage_skip_on_missing_target_witness :
    (∀ m ∈ (recGet (setMessages initialState "u2" [msgA]).messages
        "u2").getD [], m._id ≠ "nope")
    ∧ updateMessage (setMessages initialState "u2" [msgA]) "u2" "nope"
        (fullPatch msgB) = setMessages initialState "u2" [msgA] :=
  ⟨by decide,
    updateMessage_skip_on_missing_target _ "u2" "nope" (fullPatch msgB)
      (by decide)⟩

/-! ### Claim C7 -/

/-- C7: after `addTypingUser` (StartTyping) for a user, the typing list
contains exactly one entry for that user (any pre-existing one is
replaced, never duplicated); in particular two immediately consecutive
identical calls still leave exactly one entry. -/
theorem addTypingUser_single_entry (s : ChatState) (p : TypingUser) :
    ((addTypingUser s p).typingUsers.filter
      (fun u => u.userId == p.userId)) = [p]
    ∧ ((addTypingUser (addTypingUser s p) p).typingUsers.filter
      (fun u => u.userId == p.userId)) = [p] :=
  ⟨addTypingUser_filter_id s p, addTypingUser_filter_id _ p⟩

/-! ### Claim C9 -/

/-- C9: `removeTypingUser` (StopTyping) for a user with no entry in the
typing list leaves the state unchanged and completes without fault. -/
theorem removeTypingUser_absent_is_noop (s : ChatState) (uid : String)
    (h : ∀ u ∈ s.typingUsers, u.userId ≠ uid) :
    removeTypingUser s uid = s := by
  unfold removeTypingUser
  have hf : s.typingUsers.filter (fun u => u.userId != uid)
      = s.typingUsers :=
    List.filter_eq_self.mpr (fun a ha => by simpa using h a ha)
  rw [hf]

/-- Witness for C9: a state where only `"u2"` and `"u3"` are typing;
stopping the absent `"u9"` changes nothing. -/
theorem removeTypingUser_absent_is_noop_witness :
    (∀ u ∈ (addTypingUser (addTypingUser initialState typB)
        typC).typingUsers, u.userId ≠ "u9")
    ∧ removeTypingUser
        (addTypingUser (addTypingUser initialState typB) typC) "u9"
      = addTypingUser (addTypingUser initialState typB) typC :=
  ⟨by decide, removeTypingUser_absent_is_noop _ "u9" (by decide)⟩

/-! ### Claim C10 -/

/-- C10: `setActiveChat` unconditionally sets the active chat and
receiver and drops every typing entry whose `userId` differs from the
opened chat's receiver (including entries for other conversations);
whenever a chat entry for the receiver exists, its unread count is
reset to zero. -/
theorem setActiveChat_contract (s : ChatState) (rid : String)
    (r : User) :
    (setActiveChat s rid r).activeChatId = some rid
    ∧ (setActiveChat s rid r).activeReceiver = some r
    ∧ ((∃ c ∈ s.chats, c.receiverId = rid) →
        ∃ c ∈ (setActiveChat s rid r).chats,
          c.receiverId = rid ∧ c.unreadCount = 0)
    ∧ (setActiveChat s rid r).typingUsers
        = s.typingUsers.filter (fun u => u.userId == rid)
    ∧ (∀ u ∈ (setActiveChat s rid r).typingUsers, u.userId = rid) := by
  refine ⟨rfl, rfl, fun hex => ?_, rfl, ?_⟩
  · have hex₁ : ∃ c ∈ s.chats, (fun c : Chat => c.receiverId == rid) c
        = true := by
      obtain ⟨c, hc, he⟩ := hex
      exact ⟨c, hc, by simp [he]⟩
    obtain ⟨b, hb, hmem⟩ := updateFirst_exists
      (fun c : Chat => c.receiverId == rid)
      (fun c => { c with unreadCount := 0 }) s.chats hex₁
    refine ⟨{ b with unreadCount := 0 }, ?_, by simpa using hb, rfl⟩
    simpa [setActiveChat] using hmem
  · intro u hu
    simp only [setActiveChat, List.mem_filter] at hu
    simpa using hu.2

/-- Witness for C10: opening chat `"u2"` on a state with one chat entry
(3 unread) and typing entries for `"u2"` and `"u3"`, plus the no-entry
invocation on the pristine state (sidebar opening a never-messaged
user), where the active chat is still set. -/
theorem setActiveChat_contract_witness :
    (setActiveChat initialState "u2" userB).activeChatId = some "u2"
    ∧ (setActiveChat initialState "u2" userB).typingUsers = []
    ∧ (∃ c ∈ (setActiveChat stateC10 "u2" userB).chats,
        c.receiverId = "u2" ∧ c.unreadCount = 0)
    ∧ (setActiveChat stateC10 "u2" userB).typingUsers = [typB] := by
  refine ⟨(setActiveChat_contract initialState "u2" userB).1, ?_, ?_, ?_⟩
  · have h := (setActiveChat_contract initialState "u2" userB).2.2.2.1
    rw [h]
    decide
  · exact (setActiveChat_contract stateC10 "u2" userB).2.2.1 (by decide)
  · have h := (setActiveChat_contract stateC10 "u2" userB).2.2.2.1
    rw [h]
    decide

/-! ### Claim C2: addMessage as an idempotent ordered upsert -/

/-- Per-conversation uniqueness: in every conversation's list, message
identifiers occur at most once. -/
def MsgIdsNodup (s : ChatState) : Prop :=
  ∀ k, (((recGet s.messages k).getD []).map (fun m => m._id)).Nodup

/-- A sequence of `addMessage` dispatches, folded left over the state
(the payload of each call is a conversation key and a message). -/
def applyAdds (t : String → Int) (s : ChatState)
    (calls : List (String × Message)) : ChatState :=
  calls.foldl (fun s c => addMessage t s c.1 c.2) s

theorem addMessage_preserves_nodup (t : String → Int) (s : ChatState)
    (rid : String) (m : Message) (h : MsgIdsNodup s) :
    MsgIdsNodup (addMessage t s rid m) := by
  intro k
  by_cases hk : rid = k
  · subst hk
    by_cases hmem : m._id ∈ ((recGet s.messages rid).getD []).map
        (fun x => x._id)
    · rw [addMessage_of_mem t s rid m hmem]
      exact h rid
    · rw [addMessage_messages_get t s rid m hmem]
      simp only [Option.getD_some, List.map_append, List.map_cons,
        List.map_nil]
      refine List.Nodup.append (h rid) (List.nodup_singleton _) ?_
      intro a ha hb
      simp only [List.mem_singleton] at hb
      subst hb
      exact hmem ha
  · rw [addMessage_messages_get_ne t s rid k m hk]
    exact h k

theorem applyAdds_preserves_nodup (t : String → Int)
    (calls : List (String × Message)) :
    ∀ s : ChatState, MsgIdsNodup s → MsgIdsNodup (applyAdds t s calls) := by
  induction calls with
  | nil => exact fun s h => h
  | cons c calls ih =>
    exact fun s h => ih _ (addMessage_preserves_nodup t s c.1 c.2 h)

/-- C2: `addMessage` (UpsertMessage) is an idempotent ordered insert: a
call whose `_id` already occurs in the conversation leaves the whole
state unchanged, a call with a fresh `_id` appends at the end of the
ordered list, and (starting from any state with per-conversation unique
ids — the initial state qualifies) every sequence of calls keeps
exactly one entry per message identifier in every conversation. -/
theorem addMessage_upsert_contract (t : String → Int) (s : ChatState)
    (rid : String) (m : Message) (calls : List (String × Message)) :
    (m._id ∈ ((recGet s.messages rid).getD []).map (fun x => x._id) →
      addMessage t s rid m = s)
    ∧ (m._id ∉ ((recGet s.messages rid).getD []).map (fun x => x._id) →
      recGet (addMessage t s rid m).messages rid
        = some ((recGet s.messages rid).getD [] ++ [m]))
    ∧ MsgIdsNodup initialState
    ∧ (MsgIdsNodup s → MsgIdsNodup (applyAdds t s calls)) :=
  ⟨addMessage_of_mem t s rid m,
    addMessage_messages_get t s rid m,
    fun _ => by simp [initialState, recGet],
    fun h => applyAdds_preserves_nodup t calls s h⟩

/-- A message sharing `msgA`'s identifier with a different body. -/
def msgDup : Message := { msgA with text := some "dup" }

/-- Witness for C2: inserting a message with `msgA`'s id again is a
no-op, inserting `msgB` appends it, and a concrete call sequence with a
repeated message keeps the id list for `"u2"` duplicate-free. -/
theorem addMessage_upsert_contract_witness :
    addMessage tZero (setMessages initialState "u2" [msgA]) "u2" msgDup
      = setMessages initialState "u2" [msgA]
    ∧ recGet (addMessage tZero (setMessages initialState "u2" [msgA])
        "u2" msgB).messages "u2" = some [msgA, msgB]
    ∧ (((recGet (applyAdds tZero initialState
        [("u2", msgA), ("u2", msgA), ("u2", msgB)]).messages
          "u2").getD []).map (fun m => m._id)).Nodup := by
  refine ⟨?_, ?_, ?_⟩
  · exact (addMessage_upsert_contract tZero
      (setMessages initialState "u2" [msgA]) "u2" msgDup []).1 (by decide)
  · exact (addMessage_upsert_contract tZero
      (setMessages initialState "u2" [msgA]) "u2" msgB []).2.1 (by decide)
  · have h := addMessage_upsert_contract tZero initialState "u2" msgB
      [("u2", msgA), ("u2", msgA), ("u2", msgB)]
    exact (h.2.2.2 h.2.2.1) "u2"

/-! ### Claim C4: inbound messages are keyed by the chat partner -/

/-- C4: on every inbound `newPrivateMessage` event, the conversation
key is the other participant — the receiver when the authenticated user
is the sender, the sender otherwise — and the message is inserted under
that key via `addMessage` (so it lands in that conversation's list when
its id is fresh). -/
theorem onNewPrivateMessage_partner_key (t : String → Int)
    (uid : Option String) (s : ChatState) (m : Message) :
    (uid = some m.senderId →
      onNewPrivateMessage t uid s m = addMessage t s m.receiverId m
      ∧ (m._id ∉ ((recGet s.messages m.receiverId).getD []).map
            (fun x => x._id) →
          m ∈ (recGet (onNewPrivateMessage t uid s m).messages
            m.receiverId).getD []))
    ∧ (uid ≠ some m.senderId →
      onNewPrivateMessage t uid s m = addMessage t s m.senderId m
      ∧ (m._id ∉ ((recGet s.messages m.senderId).getD []).map
            (fun x => x._id) →
          m ∈ (recGet (onNewPrivateMessage t uid s m).messages
            m.senderId).getD [])) := by
  constructor
  · intro h
    have he : onNewPrivateMessage t uid s m
        = addMessage t s m.receiverId m := by
      simp [onNewPrivateMessage, h]
    refine ⟨he, fun hfresh => ?_⟩
    rw [he, addMessage_messages_get t s m.receiverId m hfresh]
    simp
  · intro h
    have he : onNewPrivateMessage t uid s m
        = addMessage t s m.senderId m := by
      simp [onNewPrivateMessage, h]
    refine ⟨he, fun hfresh => ?_⟩
    rw [he, addMessage_messages_get t s m.senderId m hfresh]
    simp

/-- Witness for C4: with authenticated user `"u1"`, the self-sent
`msgA` (sender `"u1"`, receiver `"u2"`) is stored under `"u2"`, and the
inbound `msgB` (sender `"u2"`) is also stored under `"u2"`. -/
theorem onNewPrivateMessage_partner_key_witness :
    msgA ∈ (recGet (onNewPrivateMessage tZero (some "u1") initialState
      msgA).messages "u2").getD []
    ∧ msgB ∈ (recGet (onNewPrivateMessage tZero (some "u1") initialState
      msgB).messages "u2").getD [] :=
  ⟨((onNewPrivateMessage_partner_key tZero (some "u1") initialState
      msgA).1 (by decide)).2 (by decide),
    ((onNewPrivateMessage_partner_key tZero (some "u1") initialState
      msgB).2 (by decide)).2 (by decide)⟩

/-- Shared helper: a connected send into a conversation with no prior
entry leaves exactly the optimistic placeholder in the store. -/
theorem sendMessage_connected_fresh (t : String → Int)
    (uid : Option String) (nowMs : Nat) (nowISO : String)
    (s : ChatState) (data : SendPayload)
    (hfresh : recGet s.messages data.receiverId = none) :
    recGet (sendMessage t true uid nowMs nowISO s data).1.messages
      data.receiverId = some [optimisticMessage uid nowMs nowISO data] := by
  have hf : (optimisticMessage uid nowMs nowISO data)._id
      ∉ ((recGet s.messages data.receiverId).getD []).map
        (fun x => x._id) := by
    simp [hfresh]
  simp only [sendMessage, Bool.not_true, Bool.false_eq_true, if_false]
  rw [addMessage_messages_get t s data.receiverId _ hf]
  simp [hfresh]

/-! ### Claim C3: sendMessage performs no payload validation -/

/-- Counterexample to C3: invoked while connected with neither text nor
image, `sendMessage` still emits `sendPrivateMessage` and the store
gains a conversation entry for the receiver (claim says both are
suppressed). -/
theorem sendMessage_empty_payload_not_noop :
    (sendMessage tZero true (some "u1") 0 "1970-01-01T00:00:00.000Z"
      initialState ⟨"u2", none, none⟩).2 ≠ []
    ∧ recGet (sendMessage tZero true (some "u1") 0
        "1970-01-01T00:00:00.000Z" initialState
        ⟨"u2", none, none⟩).1.messages "u2" ≠ none := by
  decide

/-- C3 amended: the only no-op guard in `sendMessage` is connectivity.
When disconnected the state is untouched and nothing is emitted; when
connected — even with neither text nor image — the optimistic
placeholder is inserted for the receiver and `sendPrivateMessage` is
emitted (the empty-payload guard lives in the UI send handler, not in
the bridge). -/
theorem sendMessage_guard_contract (t : String → Int)
    (uid : Option String) (nowMs : Nat) (nowISO : String)
    (s : ChatState) (data : SendPayload)
    (hfresh : recGet s.messages data.receiverId = none) :
    sendMessage t false uid nowMs nowISO s data = (s, [])
    ∧ (sendMessage t true uid nowMs nowISO s data).2
        = [OutboundEvent.sendPrivateMessage data]
    ∧ recGet (sendMessage t true uid nowMs nowISO s data).1.messages
        data.receiverId
      = some [optimisticMessage uid nowMs nowISO data] :=
  ⟨rfl, rfl,
    sendMessage_connected_fresh t uid nowMs nowISO s data hfresh⟩

/-- Witness for C3 (amended): concrete empty payload to `"u2"` from the
pristine state. -/
theorem sendMessage_guard_contract_witness :
    sendMessage tZero false (some "u1") 0 "1970-01-01T00:00:00.000Z"
      initialState ⟨"u2", none, none⟩ = (initialState, [])
    ∧ recGet (sendMessage tZero true (some "u1") 0
        "1970-01-01T00:00:00.000Z" initialState
        ⟨"u2", none, none⟩).1.messages "u2"
      = some [optimisticMessage (some "u1") 0 "1970-01-01T00:00:00.000Z"
          ⟨"u2", none, none⟩] :=
  ⟨(sendMessage_guard_contract tZero (some "u1") 0
      "1970-01-01T00:00:00.000Z" initialState ⟨"u2", none, none⟩
      (by decide)).1,
    (sendMessage_guard_contract tZero (some "u1") 0
      "1970-01-01T00:00:00.000Z" initialState ⟨"u2", none, none⟩
      (by decide)).2.2⟩

/-! ### Claim C1: optimistic send and messageSent reconciliation -/

/-- `applyPatch` with a full server patch replaces every field. -/
theorem applyPatch_fullPatch (m srv : Message) :
    applyPatch m (fullPatch srv) = srv := rfl

/-- Server-confirmed message of the C1 scenario whose creation
timestamp `"T1"` does not yield the placeholder's temporary key. -/
def srvMsg : Message :=
  { _id := "srv1", senderId := "u1", receiverId := "u2",
    text := some "hi", image := none, createdAt := "T1",
    updatedAt := "T1", read := none, readAt := none }

/-- Server-confirmed message whose creation timestamp `"0"` matches the
placeholder built at `Date.now() = 0`. -/
def srvMatch : Message :=
  { _id := "srv1", senderId := "u1", receiverId := "u2",
    text := some "hi", image := none, createdAt := "0",
    updatedAt := "0", read := none, readAt := none }

/-- Counterexample to C1: in the claim's scenario (user `"u1"` sends
`"hi"` to `"u2"` while connected, then `messageSent` arrives whose
derived temporary key does not match the placeholder), the list for
`"u2"` still contains exactly one message — not two as claimed. -/
theorem send_confirm_mismatch_counterexample :
    ((recGet (onMessageSent
        (sendMessage tZero true (some "u1") 0
          "1970-01-01T00:00:00.000Z" initialState
          ⟨"u2", some "hi", none⟩).1 srvMsg).messages "u2").getD
      []).length = 1
    ∧ ¬ ((recGet (onMessageSent
        (sendMessage tZero true (some "u1") 0
          "1970-01-01T00:00:00.000Z" initialState
          ⟨"u2", some "hi", none⟩).1 srvMsg).messages "u2").getD
      []).length = 2 := by
  decide

/-- C1 amended: sending `{text: "hi", receiverId: "u2"}` as `"u1"`
while connected immediately stores exactly one placeholder (sender
`"u1"`, receiver `"u2"`, text `"hi"`, temporary id); when `messageSent`
then arrives, `updateMessage` is attempted against the derived key
`"temp_" + createdAt` — if it matches the placeholder's id the list
still holds exactly one message now bearing the server identifier,
and if it does not match the confirmation is silently dropped, the
list still holding exactly the one placeholder (a duplicate could only
arise from the separate `newPrivateMessage` path, not from this one). -/
theorem optimistic_send_confirm_contract (t : String → Int)
    (s : ChatState) (nowMs : Nat) (nowISO : String) (srv : Message)
    (hfresh : recGet s.messages "u2" = none)
    (hrcv : srv.receiverId = "u2") :
    (optimisticMessage (some "u1") nowMs nowISO
      ⟨"u2", some "hi", none⟩).senderId = "u1"
    ∧ (optimisticMessage (some "u1") nowMs nowISO
      ⟨"u2", some "hi", none⟩).receiverId = "u2"
    ∧ (optimisticMessage (some "u1") nowMs nowISO
      ⟨"u2", some "hi", none⟩).text = some "hi"
    ∧ (optimisticMessage (some "u1") nowMs nowISO
      ⟨"u2", some "hi", none⟩)._id = "temp_" ++ toString nowMs
    ∧ recGet (sendMessage t true (some "u1") nowMs nowISO s
        ⟨"u2", some "hi", none⟩).1.messages "u2"
      = some [optimisticMessage (some "u1") nowMs nowISO
          ⟨"u2", some "hi", none⟩]
    ∧ ("temp_" ++ srv.createdAt = "temp_" ++ toString nowMs →
        recGet (onMessageSent (sendMessage t true (some "u1") nowMs
          nowISO s ⟨"u2", some "hi", none⟩).1 srv).messages "u2"
        = some [srv])
    ∧ ("temp_" ++ srv.createdAt ≠ "temp_" ++ toString nowMs →
        onMessageSent (sendMessage t true (some "u1") nowMs nowISO s
          ⟨"u2", some "hi", none⟩).1 srv
        = (sendMessage t true (some "u1") nowMs nowISO s
          ⟨"u2", some "hi", none⟩).1) := by
  have h1 : recGet (sendMessage t true (some "u1") nowMs nowISO s
      ⟨"u2", some "hi", none⟩).1.messages "u2"
      = some [optimisticMessage (some "u1") nowMs nowISO
          ⟨"u2", some "hi", none⟩] :=
    sendMessage_connected_fresh t (some "u1") nowMs nowISO s
      ⟨"u2", some "hi", none⟩ hfresh
  refine ⟨rfl, rfl, rfl, rfl, h1, ?_, ?_⟩
  · intro hmatch
    unfold onMessageSent updateMessage
    rw [hrcv, hmatch, h1]
    simp only [updateFirst?, optimisticMessage, beq_self_eq_true,
      if_true, applyPatch_fullPatch]
    rw [recGet_recSet_self]
  · intro hne
    unfold onMessageSent
    rw [hrcv]
    apply updateMessage_of_no_match
    intro m hm
    rw [h1] at hm
    simp only [Option.getD_some, List.mem_singleton] at hm
    subst hm
    simp only [optimisticMessage]
    exact fun he => hne (he.symm)

/-- Witness for C1 (amended): concrete run with `Date.now() = 0`; the
confirmation `srvMatch` (created at `"0"`) replaces the placeholder,
while `srvMsg` (created at `"T1"`) is dropped, leaving the single
placeholder in place. -/
theorem optimistic_send_confirm_contract_witness :
    recGet (sendMessage tZero true (some "u1") 0
        "1970-01-01T00:00:00.000Z" initialState
        ⟨"u2", some "hi", none⟩).1.messages "u2"
      = some [optimisticMessage (some "u1") 0
          "1970-01-01T00:00:00.000Z" ⟨"u2", some "hi", none⟩]
    ∧ recGet (onMessageSent (sendMessage tZero true (some "u1") 0
        "1970-01-01T00:00:00.000Z" initialState
        ⟨"u2", some "hi", none⟩).1 srvMatch).messages "u2"
      = some [srvMatch]
    ∧ onMessageSent (sendMessage tZero true (some "u1") 0
        "1970-01-01T00:00:00.000Z" initialState
        ⟨"u2", some "hi", none⟩).1 srvMsg
      = (sendMessage tZero true (some "u1") 0
        "1970-01-01T00:00:00.000Z" initialState
        ⟨"u2", some "hi", none⟩).1 :=
  ⟨(optimistic_send_confirm_contract tZero initialState 0
      "1970-01-01T00:00:00.000Z" srvMatch (by decide)
      (by decide)).2.2.2.2.1,
    (optimistic_send_confirm_contract tZero initialState 0
      "1970-01-01T00:00:00.000Z" srvMatch (by decide)
      (by decide)).2.2.2.2.2.1 (by decide),
    (optimistic_send_confirm_contract tZero initialState 0
      "1970-01-01T00:00:00.000Z" srvMsg (by decide)
      (by decide)).2.2.2.2.2.2 (by decide)⟩

/-! ### Claim C6: alignment of messageIds with messages -/

/-- The lookup-index invariant: for every conversation key,
`messageIds[k]` is element-wise, in order, the `_id` fields of
`messages[k]` (and is present exactly when `messages[k]` is). -/
def MsgIdsAligned (s : ChatState) : Prop :=
  ∀ k, recGet s.messageIds k
    = Option.map (fun msgs => msgs.map (fun m => m._id))
        (recGet s.messages k)

/-- One dispatched store operation over the four message reducers. -/
inductive StoreOp where
  | set (rid : String) (msgs : List Message)
  | add (rid : String) (m : Message)
  | upd (rid mid : String) (p : MessagePatch)
  | del (rid mid : String)
deriving Repr, DecidableEq

def applyOp (t : String → Int) (s : ChatState) : StoreOp → ChatState
  | StoreOp.set rid msgs => setMessages s rid msgs
  | StoreOp.add rid m => addMessage t s rid m
  | StoreOp.upd rid mid p => updateMessage s rid mid p
  | StoreOp.del rid mid => removeMessage s rid mid

def applyOps (t : String → Int) (s : ChatState)
    (ops : List StoreOp) : ChatState :=
  ops.foldl (applyOp t) s

/-- An update whose patch cannot change the matched message's id. -/
def idPreserving : StoreOp → Bool
  | StoreOp.upd _ mid p => decide (p._id = none ∨ p._id = some mid)
  | _ => true

theorem setMessages_aligned (s : ChatState) (rid : String)
    (msgs : List Message) (h : MsgIdsAligned s) :
    MsgIdsAligned (setMessages s rid msgs) := by
  intro k
  simp only [setMessages, recGet_recSet]
  by_cases hk : rid = k
  · simp [hk]
  · simp [hk, h k]

theorem addMessage_messageIds_get_none (t : String → Int)
    (s : ChatState) (rid : String) (m : Message)
    (hm : recGet s.messages rid = none) :
    recGet (addMessage t s rid m).messageIds rid = some [m._id] := by
  simp only [addMessage, hm, Option.isNone_none, if_true,
    recGet_recSet_self, Option.getD_some, List.any_nil,
    Bool.false_eq_true, if_false]
  rw [addMessageChats_messageIds]
  simp [recGet_recSet_self]

theorem addMessage_messageIds_get_some (t : String → Int)
    (s : ChatState) (rid : String) (m : Message) (msgs : List Message)
    (hm : recGet s.messages rid = some msgs)
    (hfresh : m._id ∉ msgs.map (fun x => x._id)) :
    recGet (addMessage t s rid m).messageIds rid
      = some ((recGet s.messageIds rid).getD [] ++ [m._id]) := by
  have hany : msgs.any (fun x => x._id == m._id) = false := by
    rw [List.any_eq_false]
    intro x hx
    simp only [beq_iff_eq]
    exact fun hxe => hfresh (List.mem_map.mpr ⟨x, hx, hxe⟩)
  simp only [addMessage, hm, Option.isNone_some, Bool.false_eq_true,
    if_false, Option.getD_some, hany]
  rw [addMessageChats_messageIds]
  simp [recGet_recSet_self]

theorem addMessage_messageIds_get_ne (t : String → Int) (s : ChatState)
    (rid k : String) (m : Message) (hk : rid ≠ k) :
    recGet (addMessage t s rid m).messageIds k
      = recGet s.messageIds k := by
  cases hm : recGet s.messages rid with
  | none =>
    simp only [addMessage, hm, Option.isNone_none, if_true,
      recGet_recSet_self, Option.getD_some, List.any_nil,
      Bool.false_eq_true, if_false]
    rw [addMessageChats_messageIds]
    simp [recGet_recSet_ne _ _ _ _ hk]
  | some msgs =>
    simp only [addMessage, hm, Option.isNone_some, Bool.false_eq_true,
      if_false, Option.getD_some]
    by_cases hany : msgs.any (fun x => x._id == m._id)
    · simp [hany]
    · simp only [Bool.not_eq_true] at hany
      simp only [hany, Bool.false_eq_true, if_false]
      rw [addMessageChats_messageIds]
      simp [recGet_recSet_ne _ _ _ _ hk]

theorem addMessage_aligned (t : String → Int) (s : ChatState)
    (rid : String) (m : Message) (h : MsgIdsAligned s) :
    MsgIdsAligned (addMessage t s rid m) := by
  intro k
  by_cases hk : rid = k
  · subst hk
    cases hm : recGet s.messages rid with
    | none =>
      rw [addMessage_messageIds_get_none t s rid m hm]
      have hfresh : m._id ∉ ((recGet s.messages rid).getD []).map
          (fun x => x._id) := by simp [hm]
      rw [addMessage_messages_get t s rid m hfresh]
      simp [hm]
    | some msgs =>
      by_cases hdup : m._id ∈ msgs.map (fun x => x._id)
      · rw [addMessage_of_mem t s rid m (by simp [hm, hdup])]
        exact h rid
      · have hfresh : m._id ∉ ((recGet s.messages rid).getD []).map
            (fun x => x._id) := by simp [hm, hdup]
        rw [addMessage_messageIds_get_some t s rid m msgs hm hdup,
          addMessage_messages_get t s rid m hfresh]
        have hi := h rid
        rw [hm] at hi
        simp only [Option.map_some'] at hi
        simp [hm, hi]
  · rw [addMessage_messageIds_get_ne t s rid k m hk,
      addMessage_messages_get_ne t s rid k m hk]
    exact h k

theorem updateMessage_eq_of_no_key (s : ChatState) (rid mid : String)
    (p : MessagePatch) (hm : recGet s.messages rid = none) :
    updateMessage s rid mid p = s := by
  unfold updateMessage
  rw [hm]

theorem updateMessage_eq_of_not_found (s : ChatState) (rid mid : String)
    (p : MessagePatch) (msgs : List Message)
    (hm : recGet s.messages rid = some msgs)
    (hu : updateFirst? (fun m => m._id == mid)
      (fun m => applyPatch m p) msgs = none) :
    updateMessage s rid mid p = s := by
  unfold updateMessage
  rw [hm]
  simp only [hu]

theorem updateMessage_eq_of_found (s : ChatState) (rid mid : String)
    (p : MessagePatch) (msgs msgs₁ : List Message)
    (hm : recGet s.messages rid = some msgs)
    (hu : updateFirst? (fun m => m._id == mid)
      (fun m => applyPatch m p) msgs = some msgs₁) :
    updateMessage s rid mid p
      = { s with messages := recSet s.messages rid msgs₁ } := by
  unfold updateMessage
  rw [hm]
  simp only [hu]

theorem updateMessage_aligned (s : ChatState) (rid mid : String)
    (p : MessagePatch) (hp : p._id = none ∨ p._id = some mid)
    (h : MsgIdsAligned s) : MsgIdsAligned (updateMessage s rid mid p) := by
  cases hm : recGet s.messages rid with
  | none => rw [updateMessage_eq_of_no_key s rid mid p hm]; exact h
  | some msgs =>
    cases hu : updateFirst? (fun m => m._id == mid)
        (fun m => applyPatch m p) msgs with
    | none => rw [updateMessage_eq_of_not_found s rid mid p msgs hm hu]; exact h
    | some msgs₁ =>
      rw [updateMessage_eq_of_found s rid mid p msgs msgs₁ hm hu]
      have hmap : msgs₁.map (fun m => m._id)
          = msgs.map (fun m => m._id) := by
        refine updateFirst?_map_eq _ _ _ msgs msgs₁ ?_ hu
        intro a ha
        have haid : a._id = mid := by simpa using ha
        rcases hp with hp | hp <;> simp [applyPatch, hp, haid]
      intro k
      simp only [recGet_recSet]
      by_cases hk : rid = k
      · subst hk
        have hi := h rid
        rw [hm] at hi
        simp only [Option.map_some'] at hi
        simp [hi, hmap, hm]
      · simp [hk, h k]

theorem removeMessage_aligned (s : ChatState) (rid mid : String)
    (h : MsgIdsAligned s) : MsgIdsAligned (removeMessage s rid mid) := by
  unfold removeMessage
  cases hm : recGet s.messages rid with
  | none => exact h
  | some msgs =>
    intro k
    have hi := h rid
    rw [hm] at hi
    simp only [Option.map_some'] at hi
    simp only [recGet_recSet]
    by_cases hk : rid = k
    · subst hk
      simp only [hi, Option.getD_some, if_pos rfl, Option.map_some',
        Option.some.injEq]
      rw [List.filter_map]
      rfl
    · simp [hk, h k]

/-- Counterexample to C6: from an aligned state holding `msgA` under
`"u2"`, a single `updateMessage` whose patch carries the confirmed
server message (changing `_id` from `"m1"` to `"srv1"`) leaves
`messageIds["u2"]` out of sync with `messages["u2"]`. -/
theorem updateMessage_breaks_alignment_counterexample :
    MsgIdsAligned (setMessages initialState "u2" [msgA])
    ∧ ¬ (recGet (applyOps tZero (setMessages initialState "u2" [msgA])
          [StoreOp.upd "u2" "m1" (fullPatch srvMsg)]).messageIds "u2"
        = Option.map (fun msgs => msgs.map (fun m => m._id))
          (recGet (applyOps tZero (setMessages initialState "u2"
            [msgA]) [StoreOp.upd "u2" "m1"
              (fullPatch srvMsg)]).messages "u2")) := by
  constructor
  · intro k
    simp only [setMessages, initialState, recGet_recSet]
    by_cases hk : "u2" = k <;> simp [hk, recGet]
  · decide

/-- C6 amended: the alignment of `messageIds[k]` with the `_id` fields
of `messages[k]` is preserved by every sequence of `setMessages`,
`addMessage`, `removeMessage` and id-preserving `updateMessage`
dispatches (patches that omit `_id` or restate the matched id); an
`updateMessage` whose patch rewrites `_id` — as the `messageSent`
confirmation does — breaks it. -/
theorem storeOps_preserve_alignment (t : String → Int)
    (ops : List StoreOp) (s : ChatState)
    (hsafe : ∀ op ∈ ops, idPreserving op = true)
    (h : MsgIdsAligned s) : MsgIdsAligned (applyOps t s ops) := by
  induction ops generalizing s with
  | nil => exact h
  | cons op ops ih =>
    have hop := hsafe op (List.mem_cons_self op ops)
    have hstep : MsgIdsAligned (applyOp t s op) := by
      cases op with
      | set rid msgs => exact setMessages_aligned s rid msgs h
      | add rid m => exact addMessage_aligned t s rid m h
      | upd rid mid p =>
        exact updateMessage_aligned s rid mid p
          (by simpa [idPreserving] using hop) h
      | del rid mid => exact removeMessage_aligned s rid mid h
    exact ih (applyOp t s op)
      (fun o ho => hsafe o (List.mem_cons_of_mem op ho)) hstep

/-- Witness for C6 (amended): a concrete safe sequence — snapshot, two
inserts, a read-flag update, a removal — keeps `messageIds["u2"]` equal
to the ids of `messages["u2"]`. -/
theorem storeOps_preserve_alignment_witness :
    (∀ op ∈ [StoreOp.set "u2" [msgA], StoreOp.add "u2" msgB,
        StoreOp.add "u1" msgB,
        StoreOp.upd "u2" "m1" { read := some (some true) },
        StoreOp.del "u2" "m2"], idPreserving op = true)
    ∧ recGet (applyOps tZero initialState [StoreOp.set "u2" [msgA],
          StoreOp.add "u2" msgB, StoreOp.add "u1" msgB,
          StoreOp.upd "u2" "m1" { read := some (some true) },
          StoreOp.del "u2" "m2"]).messageIds "u2"
      = Option.map (fun msgs => msgs.map (fun m => m._id))
          (recGet (applyOps tZero initialState [StoreOp.set "u2" [msgA],
            StoreOp.add "u2" msgB, StoreOp.add "u1" msgB,
            StoreOp.upd "u2" "m1" { read := some (some true) },
            StoreOp.del "u2" "m2"]).messages "u2") := by
  refine ⟨by decide, ?_⟩
  exact storeOps_preserve_alignment tZero [StoreOp.set "u2" [msgA],
    StoreOp.add "u2" msgB, StoreOp.add "u1" msgB,
    StoreOp.upd "u2" "m1" { read := some (some true) },
    StoreOp.del "u2" "m2"] initialState (by decide)
    (fun k => by simp [initialState, recGet]) "u2"

/-! ### Claim C8: groupMessagesByDate is a pure sorted projection -/

theorem groupStep_foldl_getD (fmt : String → String) (l : List Message) :
    ∀ (grouped : List (String × List Message)) (k : String),
    (recGet (l.foldl (groupStep fmt) grouped) k).getD []
      = (recGet grouped k).getD []
        ++ l.filter (fun m => fmt m.createdAt == k) := by
  induction l with
  | nil => intro grouped k; simp
  | cons a l ih =>
    intro grouped k
    rw [List.foldl_cons, ih]
    by_cases hk : fmt a.createdAt = k
    · subst hk
      simp [groupStep, recGet_recSet_self, List.filter_cons,
        List.append_assoc]
    · have hne : (fmt a.createdAt == k) = false := by
        simp [hk]
      simp [groupStep, recGet_recSet_ne _ _ _ _ hk, List.filter_cons,
        hne]

theorem groupMessagesByDate_get (t : String → Int)
    (fmt : String → String) (l : List Message) (k : String)
    (g : List Message)
    (h : recGet (groupMessagesByDate t fmt l) k = some g) :
    g = (sortMessagesByCreatedAt t l).filter
      (fun m => fmt m.createdAt == k) := by
  have h2 := groupStep_foldl_getD fmt (sortMessagesByCreatedAt t l) [] k
  rw [show (sortMessagesByCreatedAt t l).foldl (groupStep fmt) []
      = groupMessagesByDate t fmt l from rfl, h] at h2
  simpa [recGet] using h2

theorem sortMessagesByCreatedAt_pairwise (t : String → Int)
    (l : List Message) :
    (sortMessagesByCreatedAt t l).Pairwise
      (fun a b => t a.createdAt ≤ t b.createdAt) := by
  haveI : IsTotal Message (fun a b => t a.createdAt ≤ t b.createdAt) :=
    ⟨fun a b => le_total _ _⟩
  haveI : IsTrans Message (fun a b => t a.createdAt ≤ t b.createdAt) :=
    ⟨fun _ _ _ hab hbc => le_trans hab hbc⟩
  exact List.sorted_insertionSort _ l

/-- C8: `groupMessagesByDate` is a pure, repeatable projection of the
message list (at a fixed clock, modelled by the `getTime`/`fmtDate`
parameters): two calls on the same list agree, every group is exactly
the chronologically sorted list restricted to that date label, and
within every group messages are sorted by creation timestamp
ascending. -/
theorem groupMessagesByDate_pure_projection (t : String → Int)
    (fmt : String → String) (l : List Message) (k : String)
    (g : List Message) :
    groupMessagesByDate t fmt l = groupMessagesByDate t fmt l
    ∧ (recGet (groupMessagesByDate t fmt l) k = some g →
        g = (sortMessagesByCreatedAt t l).filter
            (fun m => fmt m.createdAt == k)
        ∧ g.Pairwise (fun a b => t a.createdAt ≤ t b.createdAt)
        ∧ ∀ m ∈ g, fmt m.createdAt = k) := by
  refine ⟨rfl, fun h => ?_⟩
  have hg := groupMessagesByDate_get t fmt l k g h
  refine ⟨hg, ?_, ?_⟩
  · rw [hg]
    exact (sortMessagesByCreatedAt_pairwise t l).filter _
  · intro m hm
    rw [hg] at hm
    simpa using (List.mem_filter.mp hm).2

/-- Witness for C8: grouping two concrete messages under one date label
yields the group in chronological order. -/
theorem groupMessagesByDate_pure_projection_witness :
    recGet (groupMessagesByDate tZero (fun _ => "Today")
      [msgB, msgA]) "Today" = some [msgB, msgA]
    ∧ [msgB, msgA].Pairwise
        (fun a b => tZero a.createdAt ≤ tZero b.createdAt) := by
  refine ⟨by decide, ?_⟩
  exact ((groupMessagesByDate_pure_projection tZero (fun _ => "Today")
    [msgB, msgA] "Today" [msgB, msgA]).2 (by decide)).2.1

end ChatFront
